import Mathlib

/-!
Shallow embedding of the JobAI resume-processing backend
(backend/src/services/resumeProcessor.js, backend/src/services/aiService.js,
backend/src/models/Resume.js, backend/src/routes/resumes.js).

JavaScript numbers are modelled as exact rationals (ℚ) and integers (ℤ);
strings as Lean `String` / `List Char`.  `Math.round` is modelled as
`jsRound`, `String.prototype.includes` as `jsIncludes`, the whitespace
class of JavaScript regular expressions (restricted to the ASCII range,
the only characters produced by the pipeline) as `isJsSpace`.
-/

namespace JobAI

/-- ASCII whitespace characters matched by the JavaScript regex class
backslash-s (space, tab, LF, VT, FF, CR). -/
def isJsSpace (c : Char) : Bool :=
  c = ' ' || c = '\t' || c = '\n' || c = '\x0b' || c = '\x0c' || c = '\r'

/-- JavaScript `Math.round`: round half toward positive infinity. -/
def jsRound (q : ℚ) : ℤ := ⌊q + 1/2⌋

/-- JavaScript `Math.max lo (Math.min hi q)` as used by the scorer. -/
def jsClamp (lo hi q : ℚ) : ℚ := max lo (min hi q)

/-- JavaScript `String.prototype.toLowerCase` (ASCII). -/
def jsToLower (s : String) : String := ⟨s.data.map Char.toLower⟩

/-- Is `needle` a contiguous substring of `hay`
(the semantics of `hay.includes(needle)`)? -/
def isSubstring (needle : List Char) : List Char → Bool
  | [] => needle.isEmpty
  | c :: rest => needle.isPrefixOf (c :: rest) || isSubstring needle rest

/-- JavaScript `hay.includes(needle)` for strings. -/
def jsIncludes (hay needle : String) : Bool :=
  needle.data.isEmpty || isSubstring needle.data hay.data

/-- Does the quantifier-free pattern match a prefix of the text?  A dot
is the regex wildcard, matching any single character except a line
terminator (so `/node.js/` also matches `node-js`); every other
character of the keyword alphabet (letters, digits, space, `# /`) is
literal.  Since the already-lowercased text is matched by a lowercase
pattern, the `i` flag adds nothing.  Each pattern character consumes
exactly one text character, so a match has the pattern's length. -/
def regexPrefixMatch : List Char → List Char → Bool
  | [], _ => true
  | _ :: _, [] => false
  | p :: ps, c :: cs =>
    (if p = '.' then !(c = '\n' || c = '\r') else p = c) &&
      regexPrefixMatch ps cs

/-- Scanner for `countOcc`: `skip` is the number of remaining characters
of the most recent match still to be stepped over (the regex engine
resumes at `lastIndex` = end of match, and every valid keyword pattern
matches exactly `needle.length` characters). -/
def countOccAux (needle : List Char) (skip : Nat) : List Char → Nat
  | [] => 0
  | c :: rest =>
    match skip with
    | s + 1 => countOccAux needle s rest
    | 0 =>
      if regexPrefixMatch needle (c :: rest) then
        1 + countOccAux needle (needle.length - 1) rest
      else
        countOccAux needle 0 rest

/-- Match count of the global regex `new RegExp(needle, "gi")` over
`hay`, for the quantifier-free patterns of the keyword table: matches
are counted scanning left to right without overlap, a dot in the
pattern being the wildcard of `regexPrefixMatch`. -/
def countOcc (needle hay : List Char) : Nat := countOccAux needle 0 hay

/-! ### Text normalization (`resumeProcessor.cleanText`) -/

/-- First stage of `cleanText`: `.replace(/\r\n/g, "\n")`. -/
def replaceCRLF : List Char → List Char
  | '\r' :: '\n' :: rest => '\n' :: replaceCRLF rest
  | c :: rest => c :: replaceCRLF rest
  | [] => []

/-- Second stage of `cleanText`: `.replace(/\r/g, "\n")`. -/
def replaceCR (l : List Char) : List Char :=
  l.map (fun c => if c = '\r' then '\n' else c)

/-- Emit one completed maximal run (held reversed in `run`): replaced by
`rep` when its length reaches `minLen`, kept verbatim otherwise. -/
def emitRun (minLen : Nat) (rep run : List Char) : List Char :=
  if run.isEmpty then []
  else if minLen ≤ run.length then rep
  else run.reverse

/-- Scanner for `collapseRuns`; `run` accumulates (reversed) the current
maximal run of characters satisfying `p`. -/
def collapseRunsAux (p : Char → Bool) (minLen : Nat) (rep : List Char)
    (run : List Char) : List Char → List Char
  | [] => emitRun minLen rep run
  | c :: cs =>
    if p c then
      collapseRunsAux p minLen rep (c :: run) cs
    else
      emitRun minLen rep run ++ c :: collapseRunsAux p minLen rep [] cs

/-- Global replacement of every maximal run of at least `minLen`
consecutive characters satisfying `p` by `rep`; shorter runs are kept.
This is the action of the regexes `/\n{3,}/g` and `/\s{2,}/g`. -/
def collapseRuns (p : Char → Bool) (minLen : Nat) (rep : List Char)
    (l : List Char) : List Char :=
  collapseRunsAux p minLen rep [] l

/-- JavaScript `String.prototype.trim`. -/
def jsTrim (l : List Char) : List Char :=
  ((l.dropWhile isJsSpace).reverse.dropWhile isJsSpace).reverse

/-- Source `resumeProcessor.cleanText`: CRLF and CR to LF, runs of 3+ newlines to
two newlines, runs of 2+ whitespace characters to one space, trim. -/
def cleanText (s : String) : String :=
  ⟨jsTrim (collapseRuns isJsSpace 2 [' ']
    (collapseRuns (fun c => c = '\n') 3 ['\n', '\n']
      (replaceCR (replaceCRLF s.data))))⟩

/-! ### Data model (Resume / Job schemas, AI service result shapes) -/

inductive SkillCategory where
  | technical | soft | language | certification | other
deriving DecidableEq

structure SkillEntry where
  name : String
  category : SkillCategory
  confidence : ℚ
deriving DecidableEq

structure ExperienceEntry where
  title : String
  company : Option String
  duration : Option String
  description : String
deriving DecidableEq

structure EducationEntry where
  degree : String
  institution : Option String
  graduationDate : Option String
deriving DecidableEq

/-- The six sub-scores of an analysis (`scores` object of the AI prompt
schema and of the Resume model's `aiAnalysis.scores`). -/
structure ScoreSet where
  formatting : ℚ
  content : ℚ
  skills : ℚ
  experience : ℚ
  education : ℚ
  keywords : ℚ
deriving DecidableEq

structure AtsCompatibility where
  score : ℚ
  issues : List String
  recommendations : List String
deriving DecidableEq

/-- The fields of a parsed AI analysis other than the ones the service
overwrites (`overallScore`, `fileName`, `processingTime`). -/
structure AnalysisCore where
  summary : String
  skills : List SkillEntry
  experience : List ExperienceEntry
  education : List EducationEntry
  strengths : List String
  weaknesses : List String
  improvements : List String
  feedback : List String
  scores : Option ScoreSet
  atsCompatibility : Option AtsCompatibility
deriving DecidableEq

/-- The value returned by `AIService.analyzeResume` and by
`AIService.getFallbackResumeAnalysis`. -/
structure AnalysisResult extends AnalysisCore where
  overallScore : ℤ
  fileName : String
  processingTime : ℤ
deriving DecidableEq

/-! ### AI service (`aiService.js`) -/

/-- Outcome of the external call/parse pipeline in `analyzeResume`:
the call may throw (missing API key, network error, timeout), the
response may contain no JSON object, or a JSON analysis is parsed.
`aiOverall` is an `overallScore` field the AI itself may have included
in its JSON (the literal prompt schema does not request one). -/
inductive AIOutcome where
  | callFailed
  | responseWithoutJson
  | parsed (analysis : AnalysisCore) (aiOverall : Option ℚ)

/-- Source `AIService.calculateOverallScore`: with a `scores` object present,
`Math.round` of the mean of its (six) values via `Object.values` and
`reduce`; otherwise the default 75. -/
def calculateOverallScore (scores : Option ScoreSet) : ℤ :=
  match scores with
  | some s => jsRound ((s.formatting + s.content + s.skills +
      s.experience + s.education + s.keywords) / 6)
  | none => 75

/-- JavaScript `skill.replace(".", "")`: removes the first dot only. -/
def replaceFirstDot : List Char → List Char
  | [] => []
  | '.' :: rest => rest
  | c :: rest => c :: replaceFirstDot rest

/-- JavaScript `text.split` on whitespace runs (accumulator holds the current token reversed);
a maximal whitespace run is one separator, and a leading or trailing
separator contributes an empty token, as in JavaScript. -/
def jsSplitWsAux (acc : List Char) : List Char → List (List Char)
  | [] => [acc.reverse]
  | c :: rest =>
    if isJsSpace c then
      match rest with
      | [] => [acc.reverse, []]
      | d :: ds =>
        if isJsSpace d then jsSplitWsAux acc (d :: ds)
        else acc.reverse :: jsSplitWsAux [] (d :: ds)
    else
      jsSplitWsAux (c :: acc) rest

/-- JavaScript `text.split` on whitespace runs, for a string. -/
def jsSplitWs (s : String) : List String :=
  (jsSplitWsAux [] s.data).map (fun l => ⟨l⟩)

/-- The keyword table of the fallback analysis in
`getFallbackResumeAnalysis`. -/
def fallbackSkillKeywords : List String :=
  ["javascript", "python", "react", "node.js", "sql", "aws", "docker", "git"]

/-- The `foundSkills` computation of `getFallbackResumeAnalysis`. -/
def getFallbackSkills (resumeText : String) : List SkillEntry :=
  let words := jsSplitWs (jsToLower resumeText)
  (fallbackSkillKeywords.filter (fun sk =>
    words.any (fun w => jsIncludes w ⟨replaceFirstDot sk.data⟩))).map
    (fun sk => { name := sk, category := .technical, confidence := 7/10 })

/-- Source `AIService.getFallbackResumeAnalysis(resumeText, fileName)`.
`now` stands for the value of `Date.now()` stored in `processingTime`. -/
def getFallbackResumeAnalysis (now : ℤ) (resumeText fileName : String) :
    AnalysisResult where
  summary := "Professional with diverse experience and technical skills."
  skills := getFallbackSkills resumeText
  experience := [{ title := "Software Developer",
                   company := some "Technology Company",
                   duration := some "2+ years",
                   description := "Software development experience" }]
  education := [{ degree := "Bachelor\x27s Degree",
                  institution := some "University",
                  graduationDate := none }]
  strengths := ["Technical skills", "Problem solving"]
  weaknesses := ["Could improve presentation"]
  improvements := ["Add more specific achievements",
    "Include quantifiable results"]
  feedback := ["Good technical foundation", "Consider adding more details"]
  scores := some { formatting := 75, content := 80, skills := 85,
                   experience := 75, education := 70, keywords := 65 }
  atsCompatibility := some { score := 75,
                             issues := ["Could improve keyword density"],
                             recommendations :=
                               ["Use more industry-specific terms"] }
  overallScore := 75
  fileName := fileName
  processingTime := now

/-- Source `AIService.analyzeResume(resumeText, fileName)`.  On a throwing call
the whole `try` block is recovered by `getFallbackResumeAnalysis`; on a
JSON-free response `parseResumeAnalysis` substitutes
`getFallbackResumeAnalysis()` (with its default empty arguments) for the
parsed analysis; either way `overallScore`, `fileName` and
`processingTime` are overwritten by the final object spread. -/
def analyzeResume (outcome : AIOutcome) (now : ℤ)
    (resumeText fileName : String) : AnalysisResult :=
  match outcome with
  | .callFailed => getFallbackResumeAnalysis now resumeText fileName
  | .responseWithoutJson =>
    let parsed := (getFallbackResumeAnalysis now "" "").toAnalysisCore
    { toAnalysisCore := parsed,
      overallScore := calculateOverallScore parsed.scores,
      fileName := fileName,
      processingTime := now }
  | .parsed analysis _aiOverall =>
    { toAnalysisCore := analysis,
      overallScore := calculateOverallScore analysis.scores,
      fileName := fileName,
      processingTime := now }

/-! ### Result assembly (`routes/resumes.js`, `processResumeAsync`) -/

/-- The heuristic extraction record built by
`resumeProcessor.extractBasicInfo`. -/
structure BasicInfo where
  emails : List String
  phones : List String
  urls : List String
  skills : List SkillEntry
  education : List EducationEntry
  experience : List ExperienceEntry
deriving DecidableEq

/-- The `analysis` sub-document written by `processResumeAsync`. -/
structure StoredAnalysis where
  summary : String
  skills : List SkillEntry
  experience : List ExperienceEntry
  education : List EducationEntry
  certifications : List String
  languages : List String
  projects : List String
deriving DecidableEq

/-- The merge performed by `processResumeAsync` when persisting the
analysis: each of skills/experience/education prefers the heuristic
array when it is non-empty, else the AI (or fallback) array. -/
def mergeAnalysis (basicInfo : BasicInfo) (aiAnalysis : AnalysisResult) :
    StoredAnalysis where
  summary := aiAnalysis.summary
  skills := if basicInfo.skills.length > 0 then basicInfo.skills
    else aiAnalysis.skills
  experience := if basicInfo.experience.length > 0 then basicInfo.experience
    else aiAnalysis.experience
  education := if basicInfo.education.length > 0 then basicInfo.education
    else aiAnalysis.education
  certifications := []
  languages := []
  projects := []

/-! ### Heuristic skill extraction (`resumeProcessor.js`) -/

/-- The fixed keyword table of `extractSkills`, in source order. -/
def skillKeywords : List String :=
  ["javascript", "python", "java", "c++", "c#", "php", "ruby", "go",
   "rust", "swift", "kotlin", "scala", "r", "matlab", "perl", "shell",
   "bash", "powershell",
   "html", "css", "react", "angular", "vue", "node.js", "express",
   "django", "flask", "spring", "laravel", "rails", "asp.net", "jquery",
   "bootstrap", "sass", "less",
   "mysql", "postgresql", "mongodb", "redis", "elasticsearch", "oracle",
   "sqlite", "cassandra", "dynamodb", "firebase",
   "aws", "azure", "gcp", "docker", "kubernetes", "jenkins", "gitlab",
   "github", "terraform", "ansible", "chef", "puppet", "vagrant",
   "git", "svn", "jira", "confluence", "slack", "trello", "asana",
   "figma", "sketch", "photoshop", "illustrator", "indesign",
   "leadership", "management", "communication", "teamwork",
   "problem solving", "analytical", "creative", "organized",
   "detail oriented", "time management",
   "agile", "scrum", "kanban", "waterfall", "lean", "six sigma",
   "devops", "ci/cd"]

def categoryTechnical : List String :=
  ["javascript", "python", "java", "react", "node.js", "sql", "aws",
   "docker"]

def categorySoft : List String :=
  ["leadership", "communication", "teamwork", "problem solving",
   "management"]

def categoryLanguage : List String :=
  ["english", "spanish", "french", "german", "chinese", "japanese"]

def categoryCertification : List String :=
  ["aws certified", "pmp", "cissp", "comptia"]

/-- Source `ResumeProcessor.categorizeSkill`: first category (in object order
technical, soft, language, certification) one of whose keywords is a
substring of the lowercased skill; default `other`. -/
def categorizeSkill (skill : String) : SkillCategory :=
  if categoryTechnical.any (fun s => jsIncludes (jsToLower skill) s) then
    .technical
  else if categorySoft.any (fun s => jsIncludes (jsToLower skill) s) then
    .soft
  else if categoryLanguage.any (fun s => jsIncludes (jsToLower skill) s) then
    .language
  else if categoryCertification.any
      (fun s => jsIncludes (jsToLower skill) s) then
    .certification
  else
    .other

/-- The reinforcement words of `calculateSkillConfidence`, in source
order. -/
def contextWords : List String :=
  ["experience", "proficient", "expert", "advanced", "years"]

/-- Source `ResumeProcessor.calculateSkillConfidence(text, skill)` (the `text`
argument is the already-lowercased resume text).  The occurrence count
is the match count of `new RegExp(skill, "gi")` — `countOcc`, with the
dot-wildcard regex semantics of `regexPrefixMatch` — while the
reinforcement checks use literal `String.prototype.includes`;
compilation of an invalid pattern such as `c++` is handled separately in
`calculateSkillConfidenceChecked`. -/
def calculateSkillConfidence (text skill : String) : ℚ :=
  let skillOccurrences := countOcc skill.data text.data
  let confidence : ℚ := min (9/10) (3/10 + skillOccurrences * (1/10))
  let confidence := contextWords.foldl
    (fun acc word =>
      if jsIncludes text (word ++ " " ++ skill) ||
         jsIncludes text (skill ++ " " ++ word) then acc + 1/10 else acc)
    confidence
  min 1 confidence

def isQuantifierChar (c : Char) : Bool := c = '+' || c = '*' || c = '?'

/-- Ignoring the first character, is every quantifier preceded by a
non-quantifier? -/
def regexValidFrom (prev : Char) : List Char → Bool
  | [] => true
  | c :: rest =>
    !(isQuantifierChar c && isQuantifierChar prev) && regexValidFrom c rest

/-- Whether `new RegExp(pattern)` compiles, restricted to the character
repertoire of `skillKeywords` (letters, digits, space, and the symbols
`+ # . /`): the only rejected patterns are those with a quantifier
(`+ * ?`) at the start or directly after another quantifier
(ECMAScript "Nothing to repeat"), as in `c++`. -/
def regexPatternValid : List Char → Bool
  | [] => true
  | c :: rest => !isQuantifierChar c && regexValidFrom c rest

/-- Function `calculateSkillConfidence` including the construction of
`new RegExp(skill, "gi")`, which throws a `SyntaxError` on an invalid
pattern before anything else runs. -/
def calculateSkillConfidenceChecked (text skill : String) :
    Except String ℚ :=
  if regexPatternValid skill.data then
    .ok (calculateSkillConfidence text skill)
  else
    .error ("SyntaxError: Invalid regular expression: /" ++ skill ++ "/")

/-- The `forEach` loop of `extractSkills` over the keyword table: a
thrown `SyntaxError` aborts the whole traversal. -/
def extractSkillsGo (textLower : String) :
    List String → Except String (List SkillEntry)
  | [] => .ok []
  | k :: ks =>
    if jsIncludes textLower k then
      match calculateSkillConfidenceChecked textLower k with
      | .error e => .error e
      | .ok conf =>
        match extractSkillsGo textLower ks with
        | .error e => .error e
        | .ok rest =>
          .ok ({ name := k, category := categorizeSkill k,
                 confidence := conf } :: rest)
    else
      extractSkillsGo textLower ks

/-- Source `ResumeProcessor.extractSkills(text)`. -/
def extractSkills (text : String) : Except String (List SkillEntry) :=
  extractSkillsGo (jsToLower text) skillKeywords

/-! ### Match scorer (`models/Resume.js`) -/

/-- The `level` enum of the Job schema. -/
inductive JobLevel where
  | entry | junior | mid | senior | lead | executive
deriving DecidableEq

structure JobSkill where
  name : String
  required : Bool
deriving DecidableEq

/-- The job fields consumed by the match scorer. -/
structure Job where
  skills : List JobSkill
  level : JobLevel
deriving DecidableEq

structure MatchResult where
  matchScore : ℤ
  matchedSkills : List String
  missingSkills : List String
  relevanceReasons : List String
deriving DecidableEq

/-- The `levelAdjustment` table of `calculateJobMatch`, keyed by
`job.level`, on `experienceYears = this.analysis.experience.length`. -/
def levelAdjustment (level : JobLevel) (experienceYears : Nat) : ℤ :=
  match level with
  | .entry => if experienceYears ≥ 0 then 10 else -10
  | .junior => if experienceYears ≥ 1 then 10 else -5
  | .mid => if experienceYears ≥ 3 then 10 else -5
  | .senior => if experienceYears ≥ 5 then 10 else -10
  | .lead => if experienceYears ≥ 7 then 10 else -15
  | .executive => if experienceYears ≥ 10 then 10 else -20

/-- The canonical tech keywords of `generateRelevanceReasons`. -/
def techSkills : List String :=
  ["javascript", "python", "react", "node.js", "java", "sql"]

/-- Source `resumeSchema.methods.generateRelevanceReasons(matchedSkills, job)`;
`experienceCount` is `this.analysis.experience.length` and
`overallScore` is `this.aiAnalysis.overallScore`. -/
def generateRelevanceReasons (matchedSkills : List String)
    (experienceCount : Nat) (jobLevel : JobLevel) (overallScore : ℤ) :
    List String :=
  let reasons :=
    (if matchedSkills.length > 3 then
      ["Strong skill alignment with " ++ toString matchedSkills.length ++
        " matching technical skills"]
     else []) ++
    (if experienceCount ≥ 2 then
      ["Relevant experience level matches job requirements"]
     else []) ++
    (if jobLevel = JobLevel.senior ∧ overallScore > 85 then
      ["Senior-level qualifications align with position requirements"]
     else []) ++
    (if matchedSkills.any (fun skill =>
        techSkills.any (fun tech => jsIncludes (jsToLower skill) tech)) then
      ["Core technology stack matches job requirements"]
     else [])
  if reasons.length > 0 then reasons
  else ["General experience and skills are relevant to this position"]

/-- Source `resumeSchema.methods.calculateJobMatch(job)`; `resumeSkillEntries`
is `this.analysis.skills`, `experienceEntries` is
`this.analysis.experience`, `overallScore` is
`this.aiAnalysis.overallScore`. -/
def calculateJobMatch (resumeSkillEntries : List SkillEntry)
    (experienceEntries : List ExperienceEntry) (overallScore : ℤ)
    (job : Job) : MatchResult :=
  let resumeSkills := resumeSkillEntries.map (fun s => jsToLower s.name)
  let jobSkills := job.skills.map (fun s => jsToLower s.name)
  let matchedSkills := resumeSkills.filter (fun skill =>
    jobSkills.any (fun jobSkill =>
      jsIncludes jobSkill skill || jsIncludes skill jobSkill))
  let missingSkills := jobSkills.filter (fun skill =>
    !(resumeSkills.any (fun resumeSkill =>
      jsIncludes resumeSkill skill || jsIncludes skill resumeSkill)))
  let base : ℚ :=
    if jobSkills.length > 0 then
      ((matchedSkills.length : ℚ) / (jobSkills.length : ℚ)) * 100
    else 0
  let adjusted := base + levelAdjustment job.level experienceEntries.length
  let clamped := jsClamp 0 100 adjusted
  { matchScore := jsRound clamped,
    matchedSkills := matchedSkills,
    missingSkills := missingSkills,
    relevanceReasons := generateRelevanceReasons matchedSkills
      experienceEntries.length job.level overallScore }

/-! ### Text extraction entry point (`resumeProcessor.extractText` and
the upload route) -/

/-- Result of handing the file's bytes to the external decoding library
(`pdf-parse` / `mammoth`): either raw text or a decoding failure. -/
inductive DecodeOutcome where
  | ok (raw : String)
  | failed
deriving DecidableEq

/-- Source `ResumeProcessor.extractFromPDF`: decode errors are re-thrown as a
fixed message; success is normalized with `cleanText`. -/
def extractFromPDF (pdf : DecodeOutcome) : Except String String :=
  match pdf with
  | .ok raw => .ok (cleanText raw)
  | .failed => .error "Failed to extract text from PDF"

/-- Source `ResumeProcessor.extractFromWord`. -/
def extractFromWord (word : DecodeOutcome) : Except String String :=
  match word with
  | .ok raw => .ok (cleanText raw)
  | .failed => .error "Failed to extract text from Word document"

def pdfMime : String := "application/pdf"

def docMime : String := "application/msword"

def docxMime : String :=
  "application/vnd.openxmlformats-officedocument.wordprocessingml.document"

/-- The `switch` on `mimeType` inside the `try` block of
`extractText`. -/
def extractTextSwitch (mimeType : String) (pdf word : DecodeOutcome) :
    Except String String :=
  if mimeType = pdfMime then extractFromPDF pdf
  else if mimeType = docMime || mimeType = docxMime then
    extractFromWord word
  else .error ("Unsupported file type: " ++ mimeType)

/-- Source `ResumeProcessor.extractText(filePath, mimeType)`: any error raised
inside the `try` block — including the unsupported-type error — is
caught and re-thrown as one generic message. -/
def extractText (mimeType : String) (pdf word : DecodeOutcome) :
    Except String String :=
  match extractTextSwitch mimeType pdf word with
  | .ok t => .ok t
  | .error _ => .error "Failed to extract text from resume"

/-- The upload route (`POST /api/resumes`) creates a Resume record only
when `extractText` succeeds with at least 100 characters of text. -/
def uploadCreatesRecord (mimeType : String) (pdf word : DecodeOutcome) :
    Bool :=
  match extractText mimeType pdf word with
  | .ok t => decide (100 ≤ t.length)
  | .error _ => false

/-! ### Specification-side definitions

These re-state, in the specification's own words, the quantities the
claims describe; the theorems below compare them with the embedded
source functions. -/

/-- Spec reading (claim C1): the lowercased resume skill names for which
some lowercased job skill name is a substring of the resume skill or
vice versa. -/
def specMatchedSkills (resumeSkills jobSkills : List String) :
    List String :=
  resumeSkills.filter (fun skill =>
    jobSkills.any (fun jobSkill =>
      isSubstring jobSkill.data skill.data ||
      isSubstring skill.data jobSkill.data))

/-- Spec reading (claim C1): the lowercased job skill names with no
bidirectional-substring match against any resume skill. -/
def specMissingSkills (resumeSkills jobSkills : List String) :
    List String :=
  jobSkills.filter (fun jobSkill =>
    !(resumeSkills.any (fun skill =>
      isSubstring jobSkill.data skill.data ||
      isSubstring skill.data jobSkill.data)))

/-- Spec reading (claim C1): base score
`matchedSkills.length / jobSkills.length × 100`, or 0 when the job lists
no skills. -/
def specBaseScore (matchedCount jobSkillCount : Nat) : ℚ :=
  if jobSkillCount = 0 then 0
  else ((matchedCount : ℚ) / (jobSkillCount : ℚ)) * 100

/-- Spec reading (claim C2): the number of reinforcement words from the
fixed set appearing immediately adjacent to the keyword, as
`"<word> <skill>"` or `"<skill> <word>"`. -/
def reinforcementCount (text skill : String) : Nat :=
  (contextWords.filter (fun word =>
    jsIncludes text (word ++ " " ++ skill) ||
    jsIncludes text (skill ++ " " ++ word))).length

/-- Spec reading (claim C7, as stated): relevance reasons whose fourth
rule fires when some matched skill IS ONE OF the canonical tech set. -/
def claimRelevanceReasons (matchedSkills : List String)
    (experienceCount : Nat) (jobLevel : JobLevel) (overallScore : ℤ) :
    List String :=
  let reasons :=
    (if matchedSkills.length > 3 then
      ["Strong skill alignment with " ++ toString matchedSkills.length ++
        " matching technical skills"]
     else []) ++
    (if experienceCount ≥ 2 then
      ["Relevant experience level matches job requirements"]
     else []) ++
    (if jobLevel = JobLevel.senior ∧ overallScore > 85 then
      ["Senior-level qualifications align with position requirements"]
     else []) ++
    (if matchedSkills.any (fun skill =>
        techSkills.any (fun tech => jsToLower skill = tech)) then
      ["Core technology stack matches job requirements"]
     else [])
  if reasons.length > 0 then reasons
  else ["General experience and skills are relevant to this position"]

/-- Amended reading (claim C7): the fourth rule fires when some matched
skill CONTAINS one of the canonical tech keywords as a substring. -/
def amendedRelevanceReasons (matchedSkills : List String)
    (experienceCount : Nat) (jobLevel : JobLevel) (overallScore : ℤ) :
    List String :=
  let reasons :=
    (if matchedSkills.length > 3 then
      ["Strong skill alignment with " ++ toString matchedSkills.length ++
        " matching technical skills"]
     else []) ++
    (if experienceCount ≥ 2 then
      ["Relevant experience level matches job requirements"]
     else []) ++
    (if jobLevel = JobLevel.senior ∧ overallScore > 85 then
      ["Senior-level qualifications align with position requirements"]
     else []) ++
    (if matchedSkills.any (fun skill =>
        techSkills.any (fun tech =>
          isSubstring tech.data (jsToLower skill).data)) then
      ["Core technology stack matches job requirements"]
     else [])
  if reasons.length > 0 then reasons
  else ["General experience and skills are relevant to this position"]

/-- All fields of an `AnalysisResult` except the `processingTime`
timestamp (used to state purity of the fallback up to the clock). -/
def eraseProcessingTime (r : AnalysisResult) : AnalysisResult :=
  { r with processingTime := 0 }

/-- No two adjacent whitespace characters (hence no CR LF pair, no
double newline, a fortiori no triple-newline run, and no multi-space
run). -/
def SeparatedWs (l : List Char) : Prop :=
  l.Chain' (fun a b => ¬(isJsSpace a ∧ isJsSpace b))

/-- A sample parsed AI analysis whose JSON carries six 80-point
sub-scores (together with an `overallScore: 10` field of its own in the
theorems that use it). -/
def sampleAIAnalysis : AnalysisCore where
  summary := "Experienced engineer"
  skills := []
  experience := []
  education := []
  strengths := []
  weaknesses := []
  improvements := []
  feedback := []
  scores := some { formatting := 80, content := 80, skills := 80,
                   experience := 80, education := 80, keywords := 80 }
  atsCompatibility := none

/-- A heuristic extraction with non-empty skills, education and
experience. -/
def sampleBasicInfoFull : BasicInfo where
  emails := []
  phones := []
  urls := []
  skills := [{ name := "python", category := .technical,
               confidence := 1/2 }]
  education := [{ degree := "BSc", institution := some "MIT",
                  graduationDate := none }]
  experience := [{ title := "Developer", company := none,
                   duration := none, description := "d" }]

/-- A heuristic extraction with all arrays empty. -/
def sampleBasicInfoEmpty : BasicInfo where
  emails := []
  phones := []
  urls := []
  skills := []
  education := []
  experience := []

/-! ### Supporting lemmas -/

theorem isSubstring_nil (l : List Char) : isSubstring [] l = true := by
  induction l with
  | nil => rfl
  | cons c rest ih => simp [isSubstring, List.isPrefixOf]

theorem jsIncludes_eq_isSubstring (hay needle : String) :
    jsIncludes hay needle = isSubstring needle.data hay.data := by
  unfold jsIncludes
  cases h : needle.data with
  | nil => simp [isSubstring_nil]
  | cons c cs => simp

theorem bidir_eq (a b : String) :
    (jsIncludes a b || jsIncludes b a)
      = (isSubstring a.data b.data || isSubstring b.data a.data) := by
  rw [jsIncludes_eq_isSubstring, jsIncludes_eq_isSubstring, Bool.or_comm]

/-- The matched-skill filter of `calculateJobMatch` agrees with the
claim's description. -/
theorem matchedSkills_eq (resumeSkills jobSkills : List String) :
    resumeSkills.filter (fun skill => jobSkills.any (fun jobSkill =>
        jsIncludes jobSkill skill || jsIncludes skill jobSkill))
      = specMatchedSkills resumeSkills jobSkills := by
  unfold specMatchedSkills
  have hp : (fun (skill : String) => jobSkills.any (fun jobSkill =>
        jsIncludes jobSkill skill || jsIncludes skill jobSkill))
      = (fun skill => jobSkills.any (fun jobSkill =>
        isSubstring jobSkill.data skill.data ||
        isSubstring skill.data jobSkill.data)) := by
    funext skill
    congr 1
    funext jobSkill
    exact bidir_eq jobSkill skill
  rw [hp]

/-- The missing-skill filter of `calculateJobMatch` agrees with the
claim's description. -/
theorem missingSkills_eq (resumeSkills jobSkills : List String) :
    jobSkills.filter (fun skill => !(resumeSkills.any (fun resumeSkill =>
        jsIncludes resumeSkill skill || jsIncludes skill resumeSkill)))
      = specMissingSkills resumeSkills jobSkills := by
  unfold specMissingSkills
  have hp : (fun (skill : String) => !(resumeSkills.any (fun rs =>
        jsIncludes rs skill || jsIncludes skill rs)))
      = (fun jobSkill => !(resumeSkills.any (fun skill =>
        isSubstring jobSkill.data skill.data ||
        isSubstring skill.data jobSkill.data))) := by
    funext skill
    have h2 : (fun (rs : String) => jsIncludes rs skill || jsIncludes skill rs)
        = (fun rs => isSubstring skill.data rs.data ||
            isSubstring rs.data skill.data) := by
      funext rs
      rw [jsIncludes_eq_isSubstring, jsIncludes_eq_isSubstring]
    rw [h2]
  rw [hp]

theorem foldl_tenth (p : String → Bool) (ws : List String) (b : ℚ) :
    ws.foldl (fun acc w => if p w then acc + 1/10 else acc) b
      = b + ((ws.filter p).length : ℚ)/10 := by
  induction ws generalizing b with
  | nil => simp
  | cons a t ih =>
    rcases Bool.eq_false_or_eq_true (p a) with h | h
    · simp only [List.foldl_cons, List.filter_cons, h, eq_self_iff_true,
        if_true, ih, List.length_cons]
      push_cast
      ring
    · simp only [List.foldl_cons, List.filter_cons, h, Bool.false_eq_true,
        if_false, ih]

/-- Closed form of `calculateSkillConfidence`. -/
theorem calculateSkillConfidence_eq (t s : String) :
    calculateSkillConfidence t s
      = min 1 (min (9/10) (3/10 + (countOcc s.data t.data : ℚ)/10)
          + (reinforcementCount t s : ℚ)/10) := by
  simp only [calculateSkillConfidence, reinforcementCount]
  rw [foldl_tenth]
  congr 2
  ring_nf

/-- The rounded mean of the six fallback sub-scores is 75. -/
theorem fallback_mean_75 :
    jsRound (((75:ℚ) + 80 + 85 + 75 + 70 + 65) / 6) = 75 := by
  unfold jsRound
  rw [show ((75:ℚ) + 80 + 85 + 75 + 70 + 65) / 6 + 1/2 = 151/2 by norm_num]
  rw [Int.floor_eq_iff]
  norm_num

/-! ### Claims -/

/-- Claim C1: for every resume analysis and job, `calculateJobMatch`
returns `matchScore = round(clamp(base + levelAdjustment, 0, 100))`,
with `matchedSkills` the lowercased resume skill names having a
bidirectional-substring match with some job skill, `missingSkills` the
lowercased job skill names with no such match, base equal to the matched
fraction times 100 (0 when the job lists no skills), and the level
adjustment from the fixed table. -/
theorem claim_C1_match_scorer (resumeSkillEntries : List SkillEntry)
    (experienceEntries : List ExperienceEntry) (overallScore : ℤ)
    (job : Job) :
    let r := calculateJobMatch resumeSkillEntries experienceEntries
      overallScore job
    let resumeSkills := resumeSkillEntries.map (fun s => jsToLower s.name)
    let jobSkills := job.skills.map (fun s => jsToLower s.name)
    r.matchedSkills = specMatchedSkills resumeSkills jobSkills ∧
    r.missingSkills = specMissingSkills resumeSkills jobSkills ∧
    r.matchScore = jsRound (jsClamp 0 100
      (specBaseScore (specMatchedSkills resumeSkills jobSkills).length
          jobSkills.length
        + levelAdjustment job.level experienceEntries.length)) := by
  intro r resumeSkills jobSkills
  have hbase : ∀ m : Nat, (if jobSkills.length > 0 then
        ((m : ℚ) / (jobSkills.length : ℚ)) * 100 else 0)
      = specBaseScore m jobSkills.length := by
    intro m
    unfold specBaseScore
    rcases Nat.eq_zero_or_pos jobSkills.length with h | h
    · simp [h]
    · rw [if_pos h, if_neg (by omega)]
  refine ⟨?_, ?_, ?_⟩
  · show (calculateJobMatch resumeSkillEntries experienceEntries
      overallScore job).matchedSkills = _
    simp only [calculateJobMatch]
    rw [matchedSkills_eq]
  · show (calculateJobMatch resumeSkillEntries experienceEntries
      overallScore job).missingSkills = _
    simp only [calculateJobMatch]
    rw [missingSkills_eq]
  · show (calculateJobMatch resumeSkillEntries experienceEntries
      overallScore job).matchScore = _
    simp only [calculateJobMatch]
    rw [matchedSkills_eq, hbase]

/-- Claim C2: for every text and skill keyword, the confidence equals
`min(1, min(0.9, 0.3 + 0.1·occurrences) + 0.1·reinforcements)` with the
occurrence count that of the global regex built from the keyword; every
confidence lies in `[0,1]`; one mention with no reinforcement gives 0.4,
and three mentions with one reinforcement give 0.7.  The last conjunct
exercises the dot-wildcard of the regex count: `/node.js/gi` matches
both `node.js` and `node-js`, giving two occurrences and 0.5. -/
theorem claim_C2_skill_confidence (text skill : String) :
    calculateSkillConfidence text skill
      = min 1 (min (9/10) (3/10 + (countOcc skill.data text.data : ℚ)/10)
          + (reinforcementCount text skill : ℚ)/10) ∧
    0 ≤ calculateSkillConfidence text skill ∧
    calculateSkillConfidence text skill ≤ 1 ∧
    calculateSkillConfidence "i know python" "python" = 4/10 ∧
    calculateSkillConfidence "python python experience python" "python"
      = 7/10 ∧
    calculateSkillConfidence "use node.js and node-js daily" "node.js"
      = 5/10 := by
  refine ⟨calculateSkillConfidence_eq text skill, ?_, ?_, ?_, ?_, ?_⟩
  · rw [calculateSkillConfidence_eq, le_min_iff]
    refine ⟨by norm_num, ?_⟩
    have h1 : (0:ℚ) ≤ (countOcc skill.data text.data : ℚ) :=
      Nat.cast_nonneg _
    have h2 : (0:ℚ) ≤ (reinforcementCount text skill : ℚ) :=
      Nat.cast_nonneg _
    have h3 : (0:ℚ) ≤ min (9/10)
        (3/10 + (countOcc skill.data text.data : ℚ)/10) := by
      rw [le_min_iff]
      constructor <;> linarith
    linarith
  · rw [calculateSkillConfidence_eq]
    exact min_le_left _ _
  · rw [calculateSkillConfidence_eq "i know python" "python",
      show countOcc "python".data "i know python".data = 1 from by decide,
      show reinforcementCount "i know python" "python" = 0 from by decide]
    norm_num [min_def]
  · rw [calculateSkillConfidence_eq _ "python",
      show countOcc "python".data
        "python python experience python".data = 3 from by decide,
      show reinforcementCount "python python experience python" "python"
        = 1 from by decide]
    norm_num [min_def]
  · rw [calculateSkillConfidence_eq _ "node.js",
      show countOcc "node.js".data
        "use node.js and node-js daily".data = 2 from by decide,
      show reinforcementCount "use node.js and node-js daily" "node.js"
        = 0 from by decide]
    norm_num [min_def]

/-- Claim C3: `analyzeResume` never propagates an internal failure: a
failed call (missing API key, network error, timeout) is recovered into
the deterministic fallback analysis, which populates every required
field and has `overallScore = round((75+80+85+75+70+65)/6) = 75`. -/
theorem claim_C3_never_throws (now : ℤ) (resumeText fileName : String) :
    analyzeResume .callFailed now resumeText fileName
      = getFallbackResumeAnalysis now resumeText fileName ∧
    (getFallbackResumeAnalysis now resumeText fileName).overallScore = 75 ∧
    jsRound (((75:ℚ) + 80 + 85 + 75 + 70 + 65) / 6) = 75 ∧
    (getFallbackResumeAnalysis now resumeText fileName).summary ≠ "" ∧
    (getFallbackResumeAnalysis now resumeText fileName).experience ≠ [] ∧
    (getFallbackResumeAnalysis now resumeText fileName).education ≠ [] ∧
    (getFallbackResumeAnalysis now resumeText fileName).strengths ≠ [] ∧
    (getFallbackResumeAnalysis now resumeText fileName).weaknesses ≠ [] ∧
    (getFallbackResumeAnalysis now resumeText fileName).improvements
      ≠ [] ∧
    (getFallbackResumeAnalysis now resumeText fileName).feedback ≠ [] ∧
    (getFallbackResumeAnalysis now resumeText fileName).scores
      = some { formatting := 75, content := 80, skills := 85,
               experience := 75, education := 70, keywords := 65 } ∧
    (getFallbackResumeAnalysis now resumeText fileName).atsCompatibility
      ≠ none := by
  refine ⟨rfl, rfl, fallback_mean_75, ?_, ?_, ?_, ?_, ?_, ?_, ?_, rfl, ?_⟩
  all_goals simp [getFallbackResumeAnalysis]

/-- Claim C4 counterexample: a parsed AI analysis that carries its own
`overallScore: 10` does not have that value trusted as-is — the service
recomputes the overall score from the six sub-scores (here 80). -/
theorem claim_C4_counterexample :
    (analyzeResume (.parsed sampleAIAnalysis (some 10)) 0 ""
      "cv.pdf").overallScore = 80 ∧
    (analyzeResume (.parsed sampleAIAnalysis (some 10)) 0 ""
      "cv.pdf").overallScore ≠ 10 := by
  have h80 : (analyzeResume (.parsed sampleAIAnalysis (some 10)) 0 ""
      "cv.pdf").overallScore = 80 := by
    show jsRound (((80:ℚ) + 80 + 80 + 80 + 80 + 80) / 6) = 80
    unfold jsRound
    rw [show ((80:ℚ) + 80 + 80 + 80 + 80 + 80) / 6 + 1/2 = 161/2 by
      norm_num]
    rw [Int.floor_eq_iff]
    norm_num
  exact ⟨h80, by rw [h80]; decide⟩

/-- Claim C4 as amended: on both paths `overallScore` is computed by the
service — the AI path recomputes `round(mean of the six sub-scores)`
(75 when the response has no `scores`), ignoring any AI-provided overall
value, and the fallback path's hardcoded 75 equals the rounded mean of
its six fixed sub-scores. -/
theorem claim_C4_amended (now : ℤ) (t f : String) (a : AnalysisCore)
    (s : ScoreSet) (aiOverall : Option ℚ) :
    (analyzeResume (.parsed { a with scores := some s } aiOverall)
        now t f).overallScore
      = jsRound ((s.formatting + s.content + s.skills + s.experience
          + s.education + s.keywords) / 6) ∧
    (analyzeResume (.parsed { a with scores := none } aiOverall)
        now t f).overallScore = 75 ∧
    (getFallbackResumeAnalysis now t f).overallScore
      = jsRound (((75:ℚ) + 80 + 85 + 75 + 70 + 65) / 6) := by
  refine ⟨rfl, rfl, ?_⟩
  rw [fallback_mean_75]
  rfl

/-- Claim C5: the persisted analysis takes the heuristic skills,
experience and education arrays whenever they are non-empty, and the
AI-provided arrays exactly when the heuristic ones are empty. -/
theorem claim_C5_merge_prefers_heuristic (basicInfo : BasicInfo)
    (ai : AnalysisResult) :
    (basicInfo.skills ≠ [] →
      (mergeAnalysis basicInfo ai).skills = basicInfo.skills) ∧
    (basicInfo.skills = [] →
      (mergeAnalysis basicInfo ai).skills = ai.skills) ∧
    (basicInfo.experience ≠ [] →
      (mergeAnalysis basicInfo ai).experience = basicInfo.experience) ∧
    (basicInfo.experience = [] →
      (mergeAnalysis basicInfo ai).experience = ai.experience) ∧
    (basicInfo.education ≠ [] →
      (mergeAnalysis basicInfo ai).education = basicInfo.education) ∧
    (basicInfo.education = [] →
      (mergeAnalysis basicInfo ai).education = ai.education) := by
  unfold mergeAnalysis
  refine ⟨fun h => ?_, fun h => ?_, fun h => ?_, fun h => ?_,
    fun h => ?_, fun h => ?_⟩
  all_goals simp [h, List.length_pos]

/-- Witness for claim C5 at concrete inputs. -/
theorem claim_C5_witness :
    ((mergeAnalysis sampleBasicInfoFull
        (getFallbackResumeAnalysis 0 "" "")).skills
      = sampleBasicInfoFull.skills) ∧
    ((mergeAnalysis sampleBasicInfoEmpty
        (getFallbackResumeAnalysis 0 "" "")).skills
      = (getFallbackResumeAnalysis 0 "" "").skills) ∧
    ((mergeAnalysis sampleBasicInfoFull
        (getFallbackResumeAnalysis 0 "" "")).experience
      = sampleBasicInfoFull.experience) ∧
    ((mergeAnalysis sampleBasicInfoEmpty
        (getFallbackResumeAnalysis 0 "" "")).experience
      = (getFallbackResumeAnalysis 0 "" "").experience) ∧
    ((mergeAnalysis sampleBasicInfoFull
        (getFallbackResumeAnalysis 0 "" "")).education
      = sampleBasicInfoFull.education) ∧
    ((mergeAnalysis sampleBasicInfoEmpty
        (getFallbackResumeAnalysis 0 "" "")).education
      = (getFallbackResumeAnalysis 0 "" "").education) :=
  ⟨(claim_C5_merge_prefers_heuristic sampleBasicInfoFull _).1
      (by simp [sampleBasicInfoFull]),
   (claim_C5_merge_prefers_heuristic sampleBasicInfoEmpty _).2.1 rfl,
   (claim_C5_merge_prefers_heuristic sampleBasicInfoFull _).2.2.1
      (by simp [sampleBasicInfoFull]),
   (claim_C5_merge_prefers_heuristic sampleBasicInfoEmpty _).2.2.2.1 rfl,
   (claim_C5_merge_prefers_heuristic sampleBasicInfoFull _).2.2.2.2.1
      (by simp [sampleBasicInfoFull]),
   (claim_C5_merge_prefers_heuristic sampleBasicInfoEmpty _).2.2.2.2.2
      rfl⟩

/-- Claim C7 counterexample: for matched skill list `["mysql"]` (with no
other rule firing) the code appends the core-technology-stack message,
because `"mysql"` CONTAINS `"sql"`, while the claim's trigger — the
matched skill being ONE OF the canonical set — does not hold, so the
claim predicts the generic fallback reason. -/
theorem claim_C7_counterexample :
    generateRelevanceReasons ["mysql"] 0 .entry 0
        = ["Core technology stack matches job requirements"] ∧
    claimRelevanceReasons ["mysql"] 0 .entry 0
        = ["General experience and skills are relevant to this position"]
    ∧
    generateRelevanceReasons ["mysql"] 0 .entry 0
        ≠ claimRelevanceReasons ["mysql"] 0 .entry 0 := by
  refine ⟨by decide, by decide, by decide⟩

/-- Claim C7 as amended: the reasons list is built from the fixed
templates in fixed order with the stated triggers, except that the
fourth rule fires when some matched skill CONTAINS one of the canonical
tech keywords as a substring (not only when it is equal to one); the
scorer passes the matched skills, the experience-entry count, the job
level and the resume's overall score to this builder. -/
theorem claim_C7_amended (matchedSkills : List String)
    (experienceCount : Nat) (jobLevel : JobLevel) (overallScore : ℤ)
    (resumeSkillEntries : List SkillEntry)
    (experienceEntries : List ExperienceEntry) (job : Job) :
    generateRelevanceReasons matchedSkills experienceCount jobLevel
        overallScore
      = amendedRelevanceReasons matchedSkills experienceCount jobLevel
        overallScore ∧
    (calculateJobMatch resumeSkillEntries experienceEntries overallScore
        job).relevanceReasons
      = generateRelevanceReasons
          (specMatchedSkills
            (resumeSkillEntries.map (fun s => jsToLower s.name))
            (job.skills.map (fun s => jsToLower s.name)))
          experienceEntries.length job.level overallScore := by
  constructor
  · simp only [generateRelevanceReasons, amendedRelevanceReasons,
      jsIncludes_eq_isSubstring]
  · show (calculateJobMatch resumeSkillEntries experienceEntries
      overallScore job).relevanceReasons = _
    simp only [calculateJobMatch]
    rw [matchedSkills_eq]

/-- Claim C8 counterexample: an unsupported MIME type and a failed
decode of a supported document produce the SAME error — the outer catch
of `extractText` collapses both into one generic message, so the caller
cannot distinguish them. -/
theorem claim_C8_counterexample :
    extractText "text/plain" .failed .failed
      = .error "Failed to extract text from resume" ∧
    extractText pdfMime .failed .failed
      = .error "Failed to extract text from resume" ∧
    extractText "text/plain" (.ok "x") (.ok "x")
      = .error "Failed to extract text from resume" :=
  ⟨rfl, rfl, rfl⟩

/-- Claim C8 as amended: for every MIME type outside {pdf, doc, docx}
extraction fails and no resume record is created, but the error equals
the generic extraction-failure error also raised when a supported
document cannot be decoded — the two failure kinds are not
distinguishable by the caller. -/
theorem claim_C8_amended (mimeType : String) (pdf word : DecodeOutcome)
    (h1 : mimeType ≠ pdfMime) (h2 : mimeType ≠ docMime)
    (h3 : mimeType ≠ docxMime) :
    extractText mimeType pdf word
      = .error "Failed to extract text from resume" ∧
    uploadCreatesRecord mimeType pdf word = false ∧
    extractText pdfMime .failed word
      = .error "Failed to extract text from resume" := by
  have hswitch : extractTextSwitch mimeType pdf word
      = .error ("Unsupported file type: " ++ mimeType) := by
    unfold extractTextSwitch
    simp [h1, h2, h3]
  have hext : extractText mimeType pdf word
      = .error "Failed to extract text from resume" := by
    unfold extractText
    rw [hswitch]
  refine ⟨hext, ?_, rfl⟩
  unfold uploadCreatesRecord
  rw [hext]

/-- Witness for the amended claim C8 at the concrete MIME type
`text/plain`. -/
theorem claim_C8_witness :
    ("text/plain" ≠ pdfMime ∧ "text/plain" ≠ docMime ∧
      "text/plain" ≠ docxMime) ∧
    (extractText "text/plain" .failed .failed
      = .error "Failed to extract text from resume" ∧
    uploadCreatesRecord "text/plain" .failed .failed = false ∧
    extractText pdfMime .failed .failed
      = .error "Failed to extract text from resume") :=
  ⟨⟨by decide, by decide, by decide⟩,
   claim_C8_amended "text/plain" .failed .failed (by decide) (by decide)
     (by decide)⟩

/-- Claim C10: heuristic skill extraction is NOT total — on any text
containing `c++` the construction `new RegExp("c++", "gi")` inside
`calculateSkillConfidence` throws a `SyntaxError` which aborts
`extractSkills`; on texts whose detected keywords are valid patterns the
extraction succeeds. -/
theorem claim_C10_extractSkills_cpp :
    extractSkills "experienced c++ developer"
      = .error "SyntaxError: Invalid regular expression: /c++/" ∧
    extractSkills "i use python"
      = .ok [{ name := "python", category := .technical,
               confidence :=
                 calculateSkillConfidence "i use python" "python" }] :=
  ⟨rfl, rfl⟩

theorem mem_emitRun {c : Char} {minLen : Nat} {rep run : List Char}
    (h : c ∈ emitRun minLen rep run) : c ∈ run ∨ c ∈ rep := by
  unfold emitRun at h
  split at h
  · simp at h
  · split at h
    · exact Or.inr h
    · exact Or.inl (List.mem_reverse.mp h)

theorem mem_collapseRunsAux {c : Char} {p : Char → Bool} {minLen : Nat}
    {rep : List Char} :
    ∀ {l run : List Char}, c ∈ collapseRunsAux p minLen rep run l →
      c ∈ l ∨ c ∈ run ∨ c ∈ rep := by
  intro l
  induction l with
  | nil =>
    intro run h
    rcases mem_emitRun h with h | h
    · exact Or.inr (Or.inl h)
    · exact Or.inr (Or.inr h)
  | cons a as ih =>
    intro run h
    unfold collapseRunsAux at h
    split at h
    · rcases ih h with h | h | h
      · exact Or.inl (List.mem_cons_of_mem a h)
      · rcases List.mem_cons.mp h with h | h
        · exact Or.inl (h ▸ List.mem_cons_self a as)
        · exact Or.inr (Or.inl h)
      · exact Or.inr (Or.inr h)
    · rcases List.mem_append.mp h with h | h
      · rcases mem_emitRun h with h | h
        · exact Or.inr (Or.inl h)
        · exact Or.inr (Or.inr h)
      · rcases List.mem_cons.mp h with h | h
        · exact Or.inl (h ▸ List.mem_cons_self a as)
        · rcases ih h with h | h | h
          · exact Or.inl (List.mem_cons_of_mem a h)
          · simp at h
          · exact Or.inr (Or.inr h)

/-- Every character of a run-collapsed list comes from the input or the
replacement. -/
theorem mem_collapseRuns {c : Char} {p : Char → Bool} {minLen : Nat}
    {rep l : List Char} (h : c ∈ collapseRuns p minLen rep l) :
    c ∈ l ∨ c ∈ rep := by
  rcases mem_collapseRunsAux h with h | h | h
  · exact Or.inl h
  · simp at h
  · exact Or.inr h

theorem cr_not_mem_replaceCR (l : List Char) : '\r' ∉ replaceCR l := by
  intro h
  rcases List.mem_map.mp h with ⟨a, _, ha⟩
  by_cases hr : a = '\r'
  · rw [if_pos hr] at ha
    exact absurd ha (by decide)
  · rw [if_neg hr] at ha
    exact hr ha

theorem mem_jsTrim {c : Char} {l : List Char} (h : c ∈ jsTrim l) :
    c ∈ l := by
  unfold jsTrim at h
  have h1 := List.mem_reverse.mp h
  have h2 := (List.dropWhile_suffix isJsSpace).subset h1
  have h3 := List.mem_reverse.mp h2
  exact (List.dropWhile_suffix isJsSpace).subset h3

theorem emitRun_short {rep run : List Char} (hrep : rep.length ≤ 1) :
    (emitRun 2 rep run).length ≤ 1 := by
  unfold emitRun
  split
  · simp
  · split
    · exact hrep
    · rename_i h1 h2
      rw [List.length_reverse]
      omega

theorem separatedWs_of_short {l : List Char} (h : l.length ≤ 1) :
    SeparatedWs l := by
  match l, h with
  | [], _ => exact List.chain'_nil
  | [a], _ => exact List.chain'_singleton a

/-- The whitespace-run collapse emits no two adjacent whitespace
characters: each maximal run becomes a single space (length at least 2)
or stays a single whitespace character, and the next emitted character
is not whitespace. -/
theorem separatedWs_collapseWsAux :
    ∀ (l run : List Char), SeparatedWs
      (collapseRunsAux isJsSpace 2 [' '] run l) := by
  intro l
  induction l with
  | nil =>
    intro run
    exact separatedWs_of_short (emitRun_short (by simp))
  | cons a as ih =>
    intro run
    unfold collapseRunsAux
    split
    · exact ih (a :: run)
    · rename_i ha
      rw [SeparatedWs, List.chain'_append]
      refine ⟨separatedWs_of_short (emitRun_short (by simp)), ?_, ?_⟩
      · rw [List.chain'_cons']
        refine ⟨?_, ih []⟩
        intro y _
        intro hw
        exact ha hw.1
      · intro x _ y hy
        simp only [List.head?_cons, Option.mem_def, Option.some.injEq]
          at hy
        subst hy
        intro hw
        exact ha hw.2

theorem separatedWs_suffix {l l' : List Char} (h : SeparatedWs l)
    (hs : l' <:+ l) : SeparatedWs l' :=
  List.Chain'.suffix h hs

theorem separatedWs_reverse {l : List Char} (h : SeparatedWs l) :
    SeparatedWs l.reverse := by
  rw [SeparatedWs, List.chain'_reverse]
  exact h.imp (fun a b hab hc => hab ⟨hc.2, hc.1⟩)

theorem separatedWs_jsTrim {l : List Char} (h : SeparatedWs l) :
    SeparatedWs (jsTrim l) := by
  unfold jsTrim
  exact separatedWs_reverse (separatedWs_suffix
    (separatedWs_reverse (separatedWs_suffix h
      (List.dropWhile_suffix isJsSpace)))
    (List.dropWhile_suffix isJsSpace))

/-- Claim C6 counterexample: a run of 3+ newlines between two non-blank
lines does NOT survive as two consecutive newlines — the later
`/\s{2,}/g` replacement (whose class includes newlines, not only
horizontal whitespace) collapses the pair into a single space. -/
theorem claim_C6_counterexample :
    cleanText "a\n\n\nb" = "a b" ∧ cleanText "a\n\n\nb" ≠ "a\n\nb" := by
  exact ⟨rfl, by decide⟩

/-- Claim C6 as amended: `cleanText` converts CRLF and lone CR to LF and
collapses 3+ newline runs to two, but then collapses EVERY run of two or
more whitespace characters — newlines included — to a single space, and
trims; hence a 3+ newline run between non-blank lines ends up a single
space, and the output never contains a CR or two adjacent whitespace
characters (in particular no triple-newline run). -/
theorem claim_C6_amended :
    (∀ s : String, '\r' ∉ (cleanText s).data ∧
      SeparatedWs (cleanText s).data) ∧
    cleanText "a\r\nb\rc" = "a\nb\nc" ∧
    cleanText "a\n\n\nb" = "a b" ∧
    cleanText "  hello \t  world  " = "hello world" := by
  refine ⟨?_, rfl, rfl, rfl⟩
  intro s
  constructor
  · intro hmem
    have h1 : ('\r' : Char) ∈ (collapseRuns isJsSpace 2 [' ']
        (collapseRuns (fun c => c = '\n') 3 ['\n', '\n']
          (replaceCR (replaceCRLF s.data)))) := mem_jsTrim hmem
    rcases mem_collapseRuns h1 with h2 | h2
    · rcases mem_collapseRuns h2 with h3 | h3
      · exact cr_not_mem_replaceCR _ h3
      · exact absurd h3 (by decide)
    · exact absurd h2 (by decide)
  · exact separatedWs_jsTrim (separatedWs_collapseWsAux _ [])

/-- Claim C9 counterexample: two invocations of the fallback analysis at
different instants differ — the `processingTime` field records
`Date.now()`. -/
theorem claim_C9_counterexample :
    (getFallbackResumeAnalysis 0 "" "").processingTime = 0 ∧
    (getFallbackResumeAnalysis 1 "" "").processingTime = 1 ∧
    getFallbackResumeAnalysis 0 "" "" ≠ getFallbackResumeAnalysis 1 "" ""
    := by
  refine ⟨rfl, rfl, fun h => ?_⟩
  exact absurd (congrArg AnalysisResult.processingTime h) (by decide)

/-- Claim C9 as amended: the fallback analysis is a pure function of the
input text and file name in every field except the `processingTime`
timestamp. -/
theorem claim_C9_amended (resumeText fileName : String) (now₁ now₂ : ℤ) :
    eraseProcessingTime
        (getFallbackResumeAnalysis now₁ resumeText fileName)
      = eraseProcessingTime
        (getFallbackResumeAnalysis now₂ resumeText fileName) := rfl

end JobAI
